import Mathlib

/-!
Shallow embedding of the process-supervision logic of `qless-py`
(`src/qless/workers/forking.py`): the `ForkingWorker` class, its
constructor, its `run` wait loop, its `stop` shutdown pass, its
`spawn` keyword-argument composition and its signal `handler`.

Python dictionaries are embedded as association lists without duplicate
keys (a no-duplicate hypothesis is carried where a proof needs it);
process ids are natural numbers; the outcomes of the blocking OS calls
`os.wait`, `os.waitpid` and `os.fork` are supplied as explicit inputs
(event traces and oracles), so every definition is executable.
-/

namespace QlessFork

/-! ## Association-list model of Python dictionaries -/

/-- The keys of a dictionary, in insertion order (`d.keys()`). -/
def keys (d : List (ι × α)) : List ι := d.map Prod.fst

/-- `d[k]` as an option: the value at the first entry with key `k`. -/
def dlookup [DecidableEq ι] : List (ι × α) → ι → Option α
  | [], _ => none
  | p :: rest, k => if p.1 = k then some p.2 else dlookup rest k

/-- Remove every entry with key `k` (on a duplicate-free dictionary this
is removal of the single entry for `k`, and a no-op when `k` is absent:
the effect of `d.pop(k, default)` on the dictionary). -/
def derase [DecidableEq ι] : List (ι × α) → ι → List (ι × α)
  | [], _ => []
  | p :: rest, k => if p.1 = k then derase rest k else p :: derase rest k

/-- `d.pop(k)` without a default: `none` models the `KeyError` raised
when `k` is absent; otherwise the value and the remaining dictionary. -/
def dpop [DecidableEq ι] (d : List (ι × α)) (k : ι) : Option (α × List (ι × α)) :=
  match dlookup d k with
  | none => none
  | some v => some (v, derase d k)

/-- `d[k] = v`: replace the value at an existing entry for `k`, else
append a new entry at the end (Python dict insertion order). -/
def dinsert [DecidableEq ι] : List (ι × α) → ι → α → List (ι × α)
  | [], k, v => [(k, v)]
  | p :: rest, k, v => if p.1 = k then (k, v) :: rest else p :: dinsert rest k v

/-- `copy.update(kvs)`: apply `dinsert` for each pair of `kvs` in order. -/
def dupdate [DecidableEq ι] (d kvs : List (ι × α)) : List (ι × α) :=
  kvs.foldl (fun acc p => dinsert acc p.1 p.2) d

/-! ## Values, signals, OS events -/

/-- The Python values that appear in the supervisor's keyword options. -/
inductive PyVal where
  | vnone : PyVal
  | vint : Int → PyVal
  | vstr : String → PyVal
  | vassign : List Nat → PyVal
  | vklass : String → PyVal
  deriving DecidableEq, Repr

/-- Python truthiness, as used by `kwargs.pop('workers', 0) or NUM_CPUS`. -/
def truthy : PyVal → Bool
  | .vnone => false
  | .vint n => n ≠ 0
  | .vstr s => s ≠ ""
  | .vassign l => !l.isEmpty
  | .vklass _ => true

/-- The signals the supervisor deals with. -/
inductive Sig where
  | term : Sig
  | int : Sig
  | quit : Sig
  | hup : Sig
  | kill : Sig
  deriving DecidableEq, Repr

abbrev Pid := Nat

/-- The sandbox record `self.sandboxes`: child pid to sandbox path. -/
abbrev Sandboxes := List (Pid × String)

/-- Keyword options, `self.kwargs` and friends. -/
abbrev Dict := List (String × PyVal)

/-- `errno.EINTR` on Linux. -/
def EINTR : Nat := 4

/-- One outcome of the blocking `os.wait()` call: a child exit event
`(pid, status)`, or an `OSError` with the given errno. -/
inductive WaitResult where
  | exited : Pid → Nat → WaitResult
  | oserror : Nat → WaitResult
  deriving DecidableEq, Repr

/-- A Python exception escaping the supervisor's wait loop or `stop`. -/
inductive PyExc where
  | keyError : PyExc
  | osError : Nat → PyExc
  | nameError : PyExc
  deriving DecidableEq, Repr

/-! ## Paths: `os.path.join` and the sandbox path convention -/

/-- Does the string start with a path separator (`b.startswith('/')`)? -/
def startsSlash (s : String) : Bool := s.data.head? = some '/'

/-- Does the string end with a path separator (`a.endswith('/')`)? -/
def endsSlash (s : String) : Bool := s.data.getLast? = some '/'

/-- POSIX `os.path.join(a, b)` for a single right operand: an absolute
`b` replaces `a`; otherwise `b` is appended, inserting a separator
unless `a` is empty or already ends with one. -/
def pathJoin (a b : String) : String :=
  if startsSlash b then b
  else if a = "" ∨ endsSlash a then a ++ b
  else a ++ "/" ++ b

/-- The sandbox path for a worker slot
(`os.path.join(os.getcwd(), 'qless-py-workers', 'sandbox-%s' % index)`,
`forking.py` lines 63-64), as a function of the working directory and
the slot index. -/
def sandboxPath (cwd : String) (index : Nat) : String :=
  pathJoin (pathJoin cwd "qless-py-workers") ("sandbox-" ++ Nat.repr index)

/-! ## Spec-modelled pieces of the base `Worker` class

The base class `qless/workers/__init__.py` is not among the source
files; only `forking.py`, which calls into it, is. The two members of
it that the forking worker depends on are modelled from the spec. -/

/-- Modelled from the spec: `Worker.divide` of `qless/workers/__init__.py`
is absent from the sources. Per the spec (§2, §4.1) the partitioner
"deterministically splits a resumable work assignment into N contiguous
sub-assignments", producing "exactly N (possibly empty) sub-assignments"
in "evenly-sized groups" even when N exceeds the number of jobs.
Contiguous chunking with ceiling-division chunk sizes realises that
contract. -/
def divide : List Nat → Nat → List (List Nat)
  | _, 0 => []
  | jobs, n + 1 =>
      let size := (jobs.length + n) / (n + 1)
      jobs.take size :: divide (jobs.drop size) n

/-- Modelled from the spec: `Worker.__init__` of
`qless/workers/__init__.py` is absent from the sources. Per the spec
(§6) a worker unit is constructed from queue names, a client handle, an
optional resumable work-assignment, a sandbox path, and the remaining
implementation-defined keyword options — so the base constructor
extracts `resume` and `sandbox` from the keyword options into dedicated
attributes, and the stored passthrough dictionary `self.kwargs` retains
neither key. -/
def workerBaseKwargs (kwargs : Dict) : Dict :=
  derase (derase kwargs "resume") "sandbox"

/-! ## `ForkingWorker.__init__` (forking.py lines 16-25) -/

/-- The attributes `ForkingWorker.__init__` establishes on top of the
base constructor. `count` is kept as a Python value because
`self.kwargs.pop('workers', 0) or psutil.NUM_CPUS` is an arbitrary
truthiness test. -/
structure InitState where
  klass : PyVal
  count : PyVal
  kwargs : Dict
  sandboxes : Sandboxes
  shutdown : Bool
  deriving DecidableEq, Repr

/-- `ForkingWorker.__init__`: pop `klass` (default `SerialWorker`) and
`workers` (default `0`, falling back to the machine CPU count when
falsy) from the stored keyword options, and initialise the sandbox
record empty and the shutdown flag false. `kwargs` is the dictionary
the base constructor stored as `self.kwargs`. -/
def forkingInit (kwargs : Dict) (numCpus : Int) : InitState :=
  let k := (dlookup kwargs "klass").getD (.vklass "SerialWorker")
  let kw1 := derase kwargs "klass"
  let w := (dlookup kw1 "workers").getD (.vint 0)
  let kw2 := derase kw1 "workers"
  { klass := k
  , count := if truthy w then w else .vint numCpus
  , kwargs := kw2
  , sandboxes := []
  , shutdown := false }

/-! ## `ForkingWorker.spawn` and the kwargs each child is built with -/

/-- `ForkingWorker.spawn(**kwargs)`: `copy = dict(self.kwargs);
copy.update(kwargs)`; the worker class is then constructed with `copy`
(forking.py lines 44-53). The value returned is that final keyword
dictionary. -/
def spawnKwargs (selfKwargs callKwargs : Dict) : Dict :=
  dupdate selfKwargs callKwargs

/-- The keyword options a startup child for slot `index` constructs its
worker with: `self.spawn(resume=resume[index], sandbox=sandbox)`
(forking.py line 73), where `resume = self.divide(self.resume,
self.count)` and `sandbox` is the slot's sandbox path. -/
def startupChildKwargs (selfKwargs : Dict) (resume : List Nat) (count : Nat)
    (cwd : String) (index : Nat) : Dict :=
  spawnKwargs selfKwargs
    [("resume", .vassign ((divide resume count).getD index [])),
     ("sandbox", .vstr (sandboxPath cwd index))]

/-- The keyword options a replacement child constructs its worker with:
`self.spawn(sandbox=sandbox)` (forking.py line 90) — no `resume`
argument is passed. -/
def replacementChildKwargs (selfKwargs : Dict) (sandbox : String) : Dict :=
  spawnKwargs selfKwargs [("sandbox", .vstr sandbox)]

/-! ## The wait loop of `ForkingWorker.run` (forking.py lines 76-98) -/

/-- Outcome of one iteration of the wait-loop body, seen from the
parent: either the loop continues with an updated sandbox record
(recording the pids forked during the iteration), or an exception
escapes the inner `try` uncaught and the loop terminates. -/
inductive LoopStep where
  | continued : Sandboxes → List Pid → LoopStep
  | fatal : PyExc → Sandboxes → LoopStep
  deriving DecidableEq, Repr

/-- Is the step a continuation of the loop? -/
def LoopStep.isContinued : LoopStep → Bool
  | .continued _ _ => true
  | .fatal _ _ => false

/-- One iteration of the wait loop, given the outcome `w` of `os.wait()`
and the pid `newPid` that `os.fork()` would return in the parent:
on a child-exit event, pop the dead pid's sandbox (`self.sandboxes.pop(pid)`
raises `KeyError` when the pid is not tracked, and `KeyError` is not an
`OSError`, so it escapes), fork a replacement and record it under the
same sandbox; on an `OSError` from `wait`, retry on `EINTR` and
re-raise anything else. -/
def loopBody (sandboxes : Sandboxes) (w : WaitResult) (newPid : Pid) : LoopStep :=
  match w with
  | .exited pid _ =>
      match dpop sandboxes pid with
      | none => .fatal .keyError sandboxes
      | some (sandbox, rest) => .continued (dinsert rest newPid sandbox) [newPid]
  | .oserror e =>
      if e = EINTR then .continued sandboxes []
      else .fatal (.osError e) sandboxes

/-- How the wait loop was left. -/
inductive LoopExit where
  | normal : LoopExit
  | fatal : PyExc → LoopExit
  | running : LoopExit
  deriving DecidableEq, Repr

/-- The wait loop `while not self.shutdown: ...` over a finite trace of
`os.wait()` outcomes; `fresh n` is the pid `os.fork()` returns in the
parent for the `n`-th respawn. Nothing in the loop writes the shutdown
flag, so it is threaded through unchanged; `.running` reports an
exhausted trace with the loop still going. -/
def runLoop (fresh : Nat → Pid) : List WaitResult → Nat → Bool → Sandboxes →
    LoopExit × Sandboxes
  | _, _, true, s => (.normal, s)
  | [], _, false, s => (.running, s)
  | w :: ws, n, false, s =>
      match loopBody s w (fresh n) with
      | .continued s2 _ => runLoop fresh ws (n + 1) false s2
      | .fatal e s2 => (.fatal e, s2)

/-! ## `ForkingWorker.stop` (forking.py lines 27-42) -/

/-- The kill pass of `stop`: `for cpid in self.sandboxes.keys():
os.kill(cpid, sig)` — one signal per tracked pid, in record order. -/
def stopKills (sandboxes : Sandboxes) (sig : Sig) : List (Pid × Sig) :=
  (keys sandboxes).map (fun c => (c, sig))

/-- The reap pass of `stop`, iterating over a snapshot `pids` of the
record's keys. `wait c` is the outcome of `os.waitpid(c, 0)`: `Except.ok
status`, or `Except.error errno` for an `OSError`. The local variable
`pid` is only assigned by a successful `waitpid`, and the `finally`
clause runs `self.sandboxes.pop(pid, None)`: when `pid` is still
unassigned (`pidVar = none`, i.e. the very first `waitpid` failed) that
reference raises `NameError`; when a later `waitpid` fails, the stale
previous `pid` is popped again (a no-op) and the failed child's entry
stays in the record. -/
def stopReap (wait : Pid → Except Nat Nat) :
    List Pid → Option Pid → Sandboxes → Except PyExc Sandboxes
  | [], _, d => .ok d
  | cpid :: rest, pidVar, d =>
      match wait cpid, pidVar with
      | .ok _, _ => stopReap wait rest (some cpid) (derase d cpid)
      | .error _, none => .error .nameError
      | .error _, some p => stopReap wait rest (some p) (derase d p)

/-- `ForkingWorker.stop(sig)` in full: signal every tracked child, then
reap them one by one; returns the signals sent and the reap outcome
(the record left behind, or the exception aborting `stop`). -/
def stop (sandboxes : Sandboxes) (sig : Sig) (wait : Pid → Except Nat Nat) :
    List (Pid × Sig) × Except PyExc Sandboxes :=
  (stopKills sandboxes sig, stopReap wait (keys sandboxes) none sandboxes)

/-- The result of the `try ... finally: self.stop(signal.SIGKILL)` block
of `run`: how the wait loop ended, and the effects of the forceful-kill
pass that the `finally` clause runs on every exit of the loop. -/
structure RunResult where
  exit : LoopExit
  kills : List (Pid × Sig)
  reap : Except PyExc Sandboxes
  deriving Repr

/-- The wait-loop phase of `ForkingWorker.run` with its `finally`
clause: run the loop on the event trace, then — whether the loop ended
normally, by exception, or is still pending — apply
`self.stop(signal.SIGKILL)` to the sandbox record the loop left.
`stopWait` gives the `os.waitpid` outcomes during that final pass. -/
def runWaitPhase (fresh : Nat → Pid) (waits : List WaitResult) (shutdown : Bool)
    (sandboxes : Sandboxes) (stopWait : Pid → Except Nat Nat) : RunResult :=
  let r := runLoop fresh waits 0 shutdown sandboxes
  let st := stop r.2 .kill stopWait
  { exit := r.1, kills := st.1, reap := st.2 }

/-! ## `ForkingWorker.handler` (forking.py lines 100-109) -/

/-- The externally visible effects of one handler invocation. -/
structure HandlerResult where
  kills : List (Pid × Sig)
  reload : Bool
  exits : Bool
  shutdown : Bool
  deriving DecidableEq, Repr

/-- Is the signal in the tuple `(SIGTERM, SIGINT, SIGQUIT, SIGHUP)`? -/
def handledSig : Sig → Bool
  | .term => true
  | .int => true
  | .quit => true
  | .hup => true
  | .kill => false

/-- `ForkingWorker.handler(signum, frame)`: for a terminate, interrupt,
quit or hangup signal, forward that same signal to every tracked child;
then, for hangup, reload the logging configuration (`_reloadLogger`),
and for the others call `exit(0)`. The handler never assigns
`self.shutdown`, so the flag passes through unchanged. -/
def handler (sandboxes : Sandboxes) (shutdown : Bool) (signum : Sig) : HandlerResult :=
  if handledSig signum then
    if signum = Sig.hup then
      { kills := (keys sandboxes).map (fun c => (c, signum))
      , reload := true, exits := false, shutdown := shutdown }
    else
      { kills := (keys sandboxes).map (fun c => (c, signum))
      , reload := false, exits := true, shutdown := shutdown }
  else
    { kills := [], reload := false, exits := false, shutdown := shutdown }

/-! ## Helper lemmas about the dictionary model -/

section DictLemmas

theorem keys_cons {ι α : Type} (p : ι × α) (d : List (ι × α)) :
    keys (p :: d) = p.1 :: keys d := rfl

variable {ι : Type} {α : Type} [DecidableEq ι]

theorem dlookup_derase_ne (d : List (ι × α)) (k k2 : ι) (h : k ≠ k2) :
    dlookup (derase d k2) k = dlookup d k := by
  induction d with
  | nil => rfl
  | cons p rest ih =>
      by_cases hp : p.1 = k2
      · rw [derase, if_pos hp, ih, dlookup, if_neg (by rw [hp]; exact fun he => h he.symm)]
      · rw [derase, if_neg hp, dlookup, dlookup]
        by_cases hk : p.1 = k
        · rw [if_pos hk, if_pos hk]
        · rw [if_neg hk, if_neg hk, ih]

theorem dlookup_derase_self (d : List (ι × α)) (k : ι) :
    dlookup (derase d k) k = none := by
  induction d with
  | nil => rfl
  | cons p rest ih =>
      by_cases hp : p.1 = k
      · rw [derase, if_pos hp, ih]
      · rw [derase, if_neg hp, dlookup, if_neg hp, ih]

theorem mem_keys_derase (d : List (ι × α)) (k k2 : ι)
    (h : k2 ∈ keys (derase d k)) : k2 ∈ keys d ∧ k2 ≠ k := by
  induction d with
  | nil => exact absurd h (by simp [derase, keys])
  | cons p rest ih =>
      by_cases hp : p.1 = k
      · rw [derase, if_pos hp] at h
        obtain ⟨h1, h2⟩ := ih h
        exact ⟨List.mem_cons_of_mem _ h1, h2⟩
      · rw [derase, if_neg hp, keys_cons] at h
        rcases List.mem_cons.mp h with h | h
        · subst h
          exact ⟨List.mem_cons_self _ _, hp⟩
        · obtain ⟨h1, h2⟩ := ih h
          exact ⟨List.mem_cons_of_mem _ h1, h2⟩

theorem not_mem_keys_derase_self (d : List (ι × α)) (k : ι) :
    k ∉ keys (derase d k) := fun h => (mem_keys_derase d k k h).2 rfl

theorem derase_of_not_mem (d : List (ι × α)) (k : ι) (h : k ∉ keys d) :
    derase d k = d := by
  induction d with
  | nil => rfl
  | cons p rest ih =>
      rw [keys_cons, List.mem_cons, not_or] at h
      rw [derase, if_neg (fun hp => h.1 hp.symm), ih h.2]

theorem length_derase_of_nodup (d : List (ι × α)) (k : ι)
    (hnd : (keys d).Nodup) (hmem : k ∈ keys d) :
    (derase d k).length + 1 = d.length := by
  induction d with
  | nil => exact absurd hmem (by simp [keys])
  | cons p rest ih =>
      rw [keys_cons, List.nodup_cons] at hnd
      by_cases hp : p.1 = k
      · rw [derase, if_pos hp, derase_of_not_mem rest k (hp ▸ hnd.1), List.length_cons]
      · rw [keys_cons, List.mem_cons] at hmem
        rcases hmem with hmem | hmem
        · exact absurd hmem.symm hp
        · rw [derase, if_neg hp, List.length_cons, List.length_cons,
            ← ih hnd.2 hmem]

theorem dlookup_dinsert_self (d : List (ι × α)) (k : ι) (v : α) :
    dlookup (dinsert d k v) k = some v := by
  induction d with
  | nil => simp [dinsert, dlookup]
  | cons p rest ih =>
      by_cases hp : p.1 = k
      · rw [dinsert, if_pos hp, dlookup, if_pos rfl]
      · rw [dinsert, if_neg hp, dlookup, if_neg hp, ih]

theorem dlookup_dinsert_ne (d : List (ι × α)) (k k2 : ι) (v : α) (h : k ≠ k2) :
    dlookup (dinsert d k2 v) k = dlookup d k := by
  induction d with
  | nil =>
      simp only [dinsert, dlookup]
      rw [if_neg (fun he => h he.symm)]
  | cons p rest ih =>
      by_cases hp : p.1 = k2
      · subst hp
        rw [dinsert, if_pos rfl, dlookup, if_neg (fun he => h he.symm), dlookup,
          if_neg (fun he => h he.symm)]
      · rw [dinsert, if_neg hp, dlookup, dlookup]
        by_cases hk : p.1 = k
        · rw [if_pos hk, if_pos hk]
        · rw [if_neg hk, if_neg hk, ih]

theorem length_dinsert_of_not_mem (d : List (ι × α)) (k : ι) (v : α)
    (h : k ∉ keys d) : (dinsert d k v).length = d.length + 1 := by
  induction d with
  | nil => rfl
  | cons p rest ih =>
      rw [keys_cons, List.mem_cons, not_or] at h
      rw [dinsert, if_neg (fun hp => h.1 hp.symm), List.length_cons,
        List.length_cons, ih h.2]

end DictLemmas

/-! ## Helper lemmas about the supervisor operations -/

theorem stopReap_all_ok (wait : Pid → Except Nat Nat) (l : List Pid)
    (pv : Option Pid) (d : Sandboxes)
    (h : ∀ c ∈ l, ∃ st, wait c = .ok st) :
    stopReap wait l pv d = .ok (l.foldl (fun acc c => derase acc c) d) := by
  induction l generalizing pv d with
  | nil => rfl
  | cons c rest ih =>
      obtain ⟨st, hst⟩ := h c (List.mem_cons_self _ _)
      simp only [stopReap, hst, List.foldl_cons]
      exact ih (some c) (derase d c) (fun c2 hc2 => h c2 (List.mem_cons_of_mem _ hc2))

theorem foldl_derase_of_keys_subset (l : List Pid) (d : Sandboxes)
    (h : ∀ k ∈ keys d, k ∈ l) :
    l.foldl (fun acc c => derase acc c) d = [] := by
  induction l generalizing d with
  | nil =>
      cases d with
      | nil => rfl
      | cons p rest => exact absurd (h p.1 (List.mem_cons_self _ _)) (List.not_mem_nil _)
  | cons c rest ih =>
      rw [List.foldl_cons]
      refine ih (derase d c) (fun k hk => ?_)
      obtain ⟨h1, h2⟩ := mem_keys_derase d c k hk
      rcases List.mem_cons.mp (h k h1) with h3 | h3
      · exact absurd h3 h2
      · exact h3

theorem count_map_pair (l : List Pid) (p : Pid) (sig : Sig) :
    (l.map (fun c => (c, sig))).count (p, sig) = l.count p := by
  induction l with
  | nil => rfl
  | cons c rest ih =>
      rw [List.map_cons, List.count_cons, List.count_cons, ih]
      by_cases hc : c = p
      · subst hc; simp
      · simp [hc, fun h : (c, sig) = (p, sig) => hc (congrArg Prod.fst h)]

theorem divide_length (jobs : List Nat) (n : Nat) : (divide jobs n).length = n := by
  induction n generalizing jobs with
  | zero => rfl
  | succ m ih => rw [divide, List.length_cons, ih]

theorem runLoop_not_normal_of_not_shutdown (fresh : Nat → Pid)
    (ws : List WaitResult) (n : Nat) (s : Sandboxes) :
    (runLoop fresh ws n false s).1 ≠ .normal := by
  induction ws generalizing n s with
  | nil => simp [runLoop]
  | cons w rest ih =>
      rw [runLoop]
      cases loopBody s w (fresh n) with
      | continued s2 f => exact ih (n + 1) s2
      | fatal e s2 => simp

/-! ## Helper lemmas about strings and paths -/

theorem append_ne_empty_right (a b : String) (hb : b.data ≠ []) : a ++ b ≠ "" := by
  intro h
  have hd := congrArg String.data h
  rw [String.data_append] at hd
  exact hb (List.append_eq_nil.mp hd).2

theorem endsSlash_append (a b : String) (hb : b.data ≠ []) :
    endsSlash (a ++ b) = endsSlash b := by
  unfold endsSlash
  rw [String.data_append, List.getLast?_append_of_ne_nil _ hb]

theorem startsSlash_append (a b : String) (ha : a.data ≠ []) :
    startsSlash (a ++ b) = startsSlash a := by
  unfold startsSlash
  rw [String.data_append]
  cases h : a.data with
  | nil => exact absurd h ha
  | cons c l => simp

theorem pathJoin_of_normal (a b : String) (hb : startsSlash b = false)
    (ha1 : a ≠ "") (ha2 : endsSlash a = false) :
    pathJoin a b = a ++ "/" ++ b := by
  unfold pathJoin
  rw [hb]
  simp only [Bool.false_eq_true, if_false]
  rw [if_neg]
  push_neg
  exact ⟨ha1, by rw [ha2]; exact fun h => Bool.false_ne_true h⟩

/-- C9: for every slot index, the sandbox path computed by `run` equals the
working directory joined (with the path separator) with the pool directory
name `qless-py-workers` and the component `sandbox-<index>`, whenever the
working directory is a normal `getcwd` result (nonempty, no trailing
separator); being a plain function of the working directory and the slot
index alone, the same slot yields the same path across computations and
respawns. -/
theorem sandbox_path_convention (cwd : String) (index : Nat)
    (h1 : cwd ≠ "") (h2 : endsSlash cwd = false) :
    sandboxPath cwd index =
      cwd ++ "/" ++ "qless-py-workers" ++ "/" ++ ("sandbox-" ++ Nat.repr index) := by
  unfold sandboxPath
  have hd1 : ("qless-py-workers" : String).data ≠ [] := by decide
  have hds : ("sandbox-" : String).data ≠ [] := by decide
  rw [pathJoin_of_normal cwd "qless-py-workers" (by decide) h1 h2]
  rw [pathJoin_of_normal _ _ _ (append_ne_empty_right _ _ hd1) _]
  · rw [startsSlash_append _ _ hds]; decide
  · rw [endsSlash_append _ _ hd1]; decide

/-! ## Lookup membership helper -/

theorem mem_keys_of_dlookup {ι α : Type} [DecidableEq ι]
    (d : List (ι × α)) (k : ι) (v : α)
    (h : dlookup d k = some v) : k ∈ keys d := by
  induction d with
  | nil => exact absurd h (by rw [dlookup]; exact Option.noConfusion)
  | cons p rest ih =>
      rw [dlookup] at h
      by_cases hp : p.1 = k
      · rw [keys_cons]
        exact List.mem_cons.mpr (Or.inl hp.symm)
      · rw [if_neg hp] at h
        exact List.mem_cons_of_mem _ (ih h)

/-! ## Claim theorems -/

/-- C1 counterexample: with a single tracked child (pid 5), a wait event
reporting the untracked pid 7 is not ignored: the loop body ends in a fatal
`KeyError` (from `self.sandboxes.pop(pid)`), not in a continuation of the
wait loop. -/
theorem unknown_pid_counterexample :
    loopBody [(5, "sandbox-0")] (.exited 7 0) 9 =
      .fatal .keyError [(5, "sandbox-0")] ∧
    (loopBody [(5, "sandbox-0")] (.exited 7 0) 9).isContinued = false := by
  decide

/-- C1 (amended): when a wait event reports a pid that is not a key of the
sandbox record, the record is unchanged and no replacement is forked, but the
event is fatal rather than ignored: `self.sandboxes.pop(pid)` raises
`KeyError`, which the `except OSError` clause does not catch, so the wait
loop terminates with that exception. -/
theorem unknown_pid_fatal (s : Sandboxes) (pid st np n : Nat)
    (fresh : Nat → Pid) (ws : List WaitResult)
    (h : dlookup s pid = none) :
    loopBody s (.exited pid st) np = .fatal .keyError s ∧
    runLoop fresh (.exited pid st :: ws) n false s = (.fatal .keyError, s) := by
  have hb : ∀ np2, loopBody s (.exited pid st) np2 = .fatal .keyError s := by
    intro np2
    simp only [loopBody, dpop, h]
  refine ⟨hb np, ?_⟩
  rw [runLoop]
  simp only [hb (fresh n)]

/-- C1 witness for the amended theorem. -/
theorem unknown_pid_fatal_witness :
    loopBody [(5, "sbx")] (.exited 7 0) 9 = .fatal .keyError [(5, "sbx")] ∧
    runLoop (fun _ => 9) [.exited 7 0] 0 false [(5, "sbx")] =
      (.fatal .keyError, [(5, "sbx")]) :=
  unknown_pid_fatal [(5, "sbx")] 7 0 9 0 (fun _ => 9) [] (by decide)

/-- C2: when a tracked child (pid with sandbox `sb`) is observed to exit while
the shutdown flag is false, and the pid the fork returns is fresh, exactly one
replacement is forked, it is recorded under the dead child's sandbox path, and
the sandbox record has the same number of entries before and after. -/
theorem respawn_invariant (s : Sandboxes) (pid st np : Nat) (sb : String)
    (h1 : dlookup s pid = some sb) (h2 : np ∉ keys s)
    (h3 : (keys s).Nodup) :
    ∃ s2, loopBody s (.exited pid st) np = .continued s2 [np] ∧
      dlookup s2 np = some sb ∧ s2.length = s.length := by
  refine ⟨dinsert (derase s pid) np sb, ?_, dlookup_dinsert_self _ _ _, ?_⟩
  · simp only [loopBody, dpop, h1]
  · have hmem : pid ∈ keys s := mem_keys_of_dlookup s pid sb h1
    have hnp2 : np ∉ keys (derase s pid) :=
      fun hm => h2 (mem_keys_derase _ _ _ hm).1
    rw [length_dinsert_of_not_mem _ _ _ hnp2]
    exact length_derase_of_nodup s pid h3 hmem

/-- C2 witness. -/
theorem respawn_invariant_witness :
    ∃ s2, loopBody [(5, "a"), (6, "b")] (.exited 5 0) 9 = .continued s2 [9] ∧
      dlookup s2 9 = some "a" ∧ s2.length = [(5, "a"), (6, "b")].length :=
  respawn_invariant [(5, "a"), (6, "b")] 5 0 9 "a" (by decide) (by decide)
    (by decide)

/-- C6: an `OSError` from `os.wait` with errno `EINTR` makes the loop retry
with all supervisor state unchanged (same sandbox record, no forks), while an
`OSError` with any other errno terminates the loop fatally, both at the level
of one loop-body step and at the level of the loop on a trace. -/
theorem wait_eintr_retry (s : Sandboxes) (np e n : Nat)
    (fresh : Nat → Pid) (ws : List WaitResult) :
    loopBody s (.oserror e) np =
      (if e = EINTR then .continued s [] else .fatal (.osError e) s) ∧
    runLoop fresh (.oserror e :: ws) n false s =
      (if e = EINTR then runLoop fresh ws (n + 1) false s
       else (.fatal (.osError e), s)) := by
  constructor
  · rfl
  · rw [runLoop]
    by_cases he : e = EINTR
    · have hb : loopBody s (.oserror e) (fresh n) = .continued s [] := by
        simp only [loopBody, if_pos he]
      rw [if_pos he]
      simp only [hb]
    · have hb : loopBody s (.oserror e) (fresh n) = .fatal (.osError e) s := by
        simp only [loopBody, if_neg he]
      rw [if_neg he]
      simp only [hb]

/-- The wait loop exits immediately, without consuming any wait event, when
the shutdown flag is true at the check. -/
theorem runLoop_shutdown_true (fresh : Nat → Pid) (ws : List WaitResult)
    (n : Nat) (d : Sandboxes) : runLoop fresh ws n true d = (.normal, d) := by
  cases ws <;> rfl

/-- C3: on every exit of the wait loop — the trace and initial flag are
arbitrary, so this covers normal exits, fatal exceptions and a still-pending
loop — the `finally` clause applies `stop(SIGKILL)` to the sandbox record the
loop left behind; provided each `waitpid` of that pass succeeds, every pid
still tracked at loop exit is sent the kill signal and is reaped, and the
sandbox record afterwards is empty. -/
theorem forceful_kill_pass (fresh : Nat → Pid) (waits : List WaitResult)
    (sd : Bool) (s : Sandboxes) (stopWait : Pid → Except Nat Nat)
    (h : ∀ c ∈ keys (runLoop fresh waits 0 sd s).2, ∃ st, stopWait c = .ok st) :
    (runWaitPhase fresh waits sd s stopWait).reap = .ok [] ∧
    ∀ c ∈ keys (runLoop fresh waits 0 sd s).2,
      (c, Sig.kill) ∈ (runWaitPhase fresh waits sd s stopWait).kills := by
  constructor
  · show stopReap stopWait (keys (runLoop fresh waits 0 sd s).2) none
      (runLoop fresh waits 0 sd s).2 = .ok []
    rw [stopReap_all_ok _ _ _ _ h]
    rw [foldl_derase_of_keys_subset _ _ (fun k hk => hk)]
  · intro c hc
    show (c, Sig.kill) ∈ stopKills (runLoop fresh waits 0 sd s).2 .kill
    exact List.mem_map.mpr ⟨c, hc, rfl⟩

/-- C3 witness: a loop that exits normally at once with one tracked child. -/
theorem forceful_kill_pass_witness :
    (runWaitPhase (fun _ => 9) [] true [(3, "sb")] (fun _ => Except.ok 0)).reap
      = .ok [] ∧
    ∀ c ∈ keys (runLoop (fun _ => 9) [] 0 true [(3, "sb")]).2,
      (c, Sig.kill) ∈
        (runWaitPhase (fun _ => 9) [] true [(3, "sb")] (fun _ => Except.ok 0)).kills :=
  forceful_kill_pass (fun _ => 9) [] true [(3, "sb")] (fun _ => Except.ok 0)
    (fun _ _ => ⟨0, rfl⟩)

/-- C4: for a terminate, interrupt, quit or hangup signal, the handler sends
that same signal to every currently tracked child pid exactly once; for
hangup it reloads the logging configuration and does not exit the parent,
while for the other three it exits the parent (shutdown via `exit(0)`). -/
theorem signal_fanout (s : Sandboxes) (b : Bool) (sig : Sig)
    (hnd : (keys s).Nodup) (hs : handledSig sig = true) :
    (∀ p ∈ keys s, ((handler s b sig).kills).count (p, sig) = 1) ∧
    (sig = .hup → (handler s b sig).reload = true ∧
      (handler s b sig).exits = false) ∧
    (sig ≠ .hup → (handler s b sig).exits = true ∧
      (handler s b sig).reload = false) := by
  cases sig with
  | hup =>
      refine ⟨?_, fun _ => ⟨rfl, rfl⟩, fun hc => absurd rfl hc⟩
      intro p hp
      rw [show (handler s b Sig.hup).kills =
        (keys s).map (fun c => (c, Sig.hup)) from rfl, count_map_pair]
      exact List.count_eq_one_of_mem hnd hp
  | kill => exact absurd hs (by decide)
  | term =>
      refine ⟨?_, fun hc => Sig.noConfusion hc, fun _ => ⟨rfl, rfl⟩⟩
      intro p hp
      rw [show (handler s b Sig.term).kills =
        (keys s).map (fun c => (c, Sig.term)) from rfl, count_map_pair]
      exact List.count_eq_one_of_mem hnd hp
  | int =>
      refine ⟨?_, fun hc => Sig.noConfusion hc, fun _ => ⟨rfl, rfl⟩⟩
      intro p hp
      rw [show (handler s b Sig.int).kills =
        (keys s).map (fun c => (c, Sig.int)) from rfl, count_map_pair]
      exact List.count_eq_one_of_mem hnd hp
  | quit =>
      refine ⟨?_, fun hc => Sig.noConfusion hc, fun _ => ⟨rfl, rfl⟩⟩
      intro p hp
      rw [show (handler s b Sig.quit).kills =
        (keys s).map (fun c => (c, Sig.quit)) from rfl, count_map_pair]
      exact List.count_eq_one_of_mem hnd hp

/-- C4 witness. -/
theorem signal_fanout_witness :
    (∀ p ∈ keys [(3, "a"), (4, "b")],
      ((handler [(3, "a"), (4, "b")] false Sig.term).kills).count (p, Sig.term) = 1) ∧
    (Sig.term = Sig.hup →
      (handler [(3, "a"), (4, "b")] false Sig.term).reload = true ∧
      (handler [(3, "a"), (4, "b")] false Sig.term).exits = false) ∧
    (Sig.term ≠ Sig.hup →
      (handler [(3, "a"), (4, "b")] false Sig.term).exits = true ∧
      (handler [(3, "a"), (4, "b")] false Sig.term).reload = false) :=
  signal_fanout [(3, "a"), (4, "b")] false Sig.term (by decide) (by decide)

/-- C5 counterexample: delivering a terminate signal does not set the
shutdown flag: the handler leaves it false (it calls `exit(0)` instead of
assigning `self.shutdown`). -/
theorem shutdown_flag_counterexample :
    (handler [(3, "sb")] false Sig.term).shutdown = false := by
  decide

/-- C5 (amended): the shutdown flag is false at construction and is never
assigned afterwards: the signal handler passes it through unchanged for every
signal (the parent is shut down via `exit(0)` instead), it is never reset,
and the wait loop reads it to decide whether to keep waiting — a loop entered
with the flag true exits normally at once, and since nothing sets the flag, a
loop entered with it false never exits normally. -/
theorem shutdown_flag_lifecycle (kw : Dict) (cpus : Int) (s : Sandboxes)
    (b : Bool) (sig : Sig) (fresh : Nat → Pid) (ws : List WaitResult)
    (n : Nat) (d : Sandboxes) :
    (forkingInit kw cpus).shutdown = false ∧
    (handler s b sig).shutdown = b ∧
    runLoop fresh ws n true d = (.normal, d) ∧
    (runLoop fresh ws n false d).1 ≠ .normal := by
  refine ⟨rfl, ?_, runLoop_shutdown_true fresh ws n d,
    runLoop_not_normal_of_not_shutdown fresh ws n d⟩
  cases sig <;> rfl

/-- C5 witness for the amended theorem. -/
theorem shutdown_flag_lifecycle_witness :
    (forkingInit [("x", .vint 1)] 4).shutdown = false ∧
    (handler [(3, "a")] false Sig.term).shutdown = false ∧
    runLoop (fun _ => 9) [.exited 3 0] 0 true [(1, "y")] = (.normal, [(1, "y")]) ∧
    (runLoop (fun _ => 9) [.exited 3 0] 0 false [(1, "y")]).1 ≠ .normal :=
  shutdown_flag_lifecycle [("x", .vint 1)] 4 [(3, "a")] false Sig.term
    (fun _ => 9) [.exited 3 0] 0 [(1, "y")]

/-- C7: the first `waitpid` of the shutdown reap pass failing does terminate
`stop` with an error, contrary to the claim: the `finally` clause evaluates
the local variable `pid`, which a failed first `waitpid` never assigned, so
`stop` aborts with `NameError` instead of logging and continuing (errno 10 is
`ECHILD`). -/
theorem stop_wait_failure_aborts :
    stopReap (fun _ => .error 10) [5] none [(5, "sandbox-0")] =
      .error .nameError := rfl

/-- C9 witness. -/
theorem sandbox_path_convention_witness :
    sandboxPath "/app" 3 =
      "/app" ++ "/" ++ "qless-py-workers" ++ "/" ++ ("sandbox-" ++ Nat.repr 3) :=
  sandbox_path_convention "/app" 3 (by decide) (by decide)

/-- C8: a worker spawned at startup for slot `i` is constructed with
`resume` bound to the `i`-th sub-assignment of the partitioned resume state
(and `sandbox` bound to the slot's path), whereas a replacement worker is
constructed with no `resume` key at all — a fresh start — while still bound
to its predecessor's sandbox path; the partition has exactly `count`
sub-assignments, so the `i`-th one is meaningful for every slot. `selfK` is
the stored option dictionary after the base and forking constructors removed
`resume`, `sandbox`, `klass` and `workers` from the user's options. -/
theorem startup_vs_replacement_resume (userK : Dict) (resume : List Nat)
    (count : Nat) (cpus : Int) (cwd : String) (i : Nat) (sandbox : String) :
    let selfK := (forkingInit (workerBaseKwargs userK) cpus).kwargs
    dlookup (startupChildKwargs selfK resume count cwd i) "resume" =
      some (.vassign ((divide resume count).getD i [])) ∧
    dlookup (startupChildKwargs selfK resume count cwd i) "sandbox" =
      some (.vstr (sandboxPath cwd i)) ∧
    dlookup (replacementChildKwargs selfK sandbox) "resume" = none ∧
    dlookup (replacementChildKwargs selfK sandbox) "sandbox" =
      some (.vstr sandbox) ∧
    (divide resume count).length = count := by
  intro selfK
  have hsu : startupChildKwargs selfK resume count cwd i =
      dinsert (dinsert selfK "resume"
        (.vassign ((divide resume count).getD i [])))
        "sandbox" (.vstr (sandboxPath cwd i)) := rfl
  have hre : replacementChildKwargs selfK sandbox =
      dinsert selfK "sandbox" (.vstr sandbox) := rfl
  have hnone : dlookup selfK "resume" = none := by
    show dlookup (derase (derase (derase (derase userK "resume") "sandbox")
      "klass") "workers") "resume" = none
    rw [dlookup_derase_ne _ _ _ (by decide), dlookup_derase_ne _ _ _ (by decide),
      dlookup_derase_ne _ _ _ (by decide), dlookup_derase_self]
  refine ⟨?_, ?_, ?_, ?_, divide_length resume count⟩
  · rw [hsu, dlookup_dinsert_ne _ _ _ _ (by decide), dlookup_dinsert_self]
  · rw [hsu, dlookup_dinsert_self]
  · rw [hre, dlookup_dinsert_ne _ _ _ _ (by decide), hnone]
  · rw [hre, dlookup_dinsert_self]

/-- C10: at construction, when the `workers` option is absent or `0`, the
worker count is the machine's CPU count; otherwise it is the provided value;
and in every case neither `workers` nor `klass` remains among the keyword
options stored for spawned workers. -/
theorem worker_count_init (kw : Dict) (cpus : Int) :
    "workers" ∉ keys (forkingInit kw cpus).kwargs ∧
    "klass" ∉ keys (forkingInit kw cpus).kwargs ∧
    (dlookup kw "workers" = none → (forkingInit kw cpus).count = .vint cpus) ∧
    (dlookup kw "workers" = some (.vint 0) →
      (forkingInit kw cpus).count = .vint cpus) ∧
    (∀ w : Int, w ≠ 0 → dlookup kw "workers" = some (.vint w) →
      (forkingInit kw cpus).count = .vint w) := by
  have hkw : (forkingInit kw cpus).kwargs =
      derase (derase kw "klass") "workers" := rfl
  have hlk : dlookup (derase kw "klass") "workers" = dlookup kw "workers" :=
    dlookup_derase_ne _ _ _ (by decide)
  have hcount : (forkingInit kw cpus).count =
      (if truthy ((dlookup (derase kw "klass") "workers").getD (.vint 0))
       then (dlookup (derase kw "klass") "workers").getD (.vint 0)
       else .vint cpus) := rfl
  refine ⟨?_, ?_, ?_, ?_, ?_⟩
  · rw [hkw]
    exact not_mem_keys_derase_self _ _
  · rw [hkw]
    intro hm
    exact not_mem_keys_derase_self kw "klass" (mem_keys_derase _ _ _ hm).1
  · intro h
    rw [hcount, hlk, h]
    rfl
  · intro h
    rw [hcount, hlk, h]
    rfl
  · intro w hw h
    rw [hcount, hlk, h]
    show (if truthy (.vint w) then PyVal.vint w else .vint cpus) = .vint w
    rw [if_pos (by simp [truthy, hw])]

/-- C10 witness. -/
theorem worker_count_init_witness :
    "workers" ∉
      keys (forkingInit [("workers", .vint 3), ("klass", .vstr "K"),
        ("x", .vint 1)] 8).kwargs ∧
    (forkingInit [("workers", .vint 3), ("klass", .vstr "K"),
      ("x", .vint 1)] 8).count = .vint 3 :=
  ⟨(worker_count_init [("workers", .vint 3), ("klass", .vstr "K"),
      ("x", .vint 1)] 8).1,
   (worker_count_init [("workers", .vint 3), ("klass", .vstr "K"),
      ("x", .vint 1)] 8).2.2.2.2 3 (by decide) (by decide)⟩

end QlessFork

